import Mathlib

/-!
Shallow embedding of the scraper pipeline in `scraper.py` (class `DataScraper`),
together with the data model of `models.py` and the configuration of `config.py`.

Modelling conventions:
* Machine integers are `Nat`; the configured inter-request delay is modelled as a
  `Nat` duration (the code stores a float; only its positivity and identity matter here).
* HTTP traffic is modelled by a function from attempt index to the observed outcome
  of that attempt (`AttemptOutcome`), and `asyncio.sleep` calls are instrumented as a
  list of slept durations in call order.
* BeautifulSoup selector results are modelled structurally: an `Option` holds the
  found element (its stripped text, or its attributes), `none` meaning a selector miss.
* Wall-clock timestamps (`scraped_at`, `scraping_started`, `scraping_completed`) are
  outside the embedding; no property below mentions them.
-/

set_option autoImplicit false

namespace Scraper

/-- Python truthiness of an optional string: `None` and the empty string are falsy. -/
def pyTruthy : Option String → Bool
  | none => false
  | some s => s != ""

/-- Membership of `needle` as a contiguous run in a list of characters,
modelling Python's `in` on strings. -/
def charsContain (needle : List Char) : List Char → Bool
  | [] => needle.isEmpty
  | c :: rest => needle.isPrefixOf (c :: rest) || charsContain needle rest

/-- Python's `needle in hay` for strings. -/
def strContains (hay needle : String) : Bool :=
  charsContain needle.toList hay.toList

/-- Python's `s.startswith(pre)`. -/
def strStartsWith (s pre : String) : Bool :=
  pre.toList.isPrefixOf s.toList

/-- Model of the external `urllib.parse.urljoin`. The properties below depend only on
non-absolute locators being resolved against the base, never on the resolved text. -/
def urljoin (base rel : String) : String :=
  base ++ rel

/-- Python's `a or b` over optional strings (first operand when truthy, else second). -/
def pyOrStr (a b : Option String) : Option String :=
  if pyTruthy a then a else b

/-- Python's `x or d` where `x : Optional[int]`: `None` and `0` fall through to `d`. -/
def pyOrNat (x : Option Nat) (d : Nat) : Nat :=
  match x with
  | none => d
  | some n => if n = 0 then d else n

/-! ### Data model (`models.py`) -/

/-- `Book` of `models.py`: `title` is the only required field; the `scraped_at`
timestamp is outside the embedding. -/
structure Book where
  title : String
  author : Option String := none
  price : Option String := none
  image_url : Option String := none
  product_url : Option String := none
  availability : Option String := none
  category : Option String := none
  deriving Repr, DecidableEq

/-- `ScrapingResult` of `models.py`, without the two wall-clock timestamps. -/
structure ScrapingResult where
  site_name : String
  category : String
  total_books : Nat
  pages_scraped : Nat
  books : List Book
  success : Bool
  errors : List String
  deriving Repr, DecidableEq

/-! ### Configuration (`config.py`) -/

/-- The fields of `SiteConfig` the embedded pipeline reads. The CSS selector strings
themselves are consumed by the DOM library; their results are what `PageHtml` and
`ProductElement` model. -/
structure SiteConfig where
  name : String
  base_url : String
  category_params : List (String × String)
  deriving Repr, DecidableEq

/-- The fields of `ScraperConfig` the embedded pipeline reads. -/
structure ScraperConfig where
  max_pages : Nat
  delay_between_requests : Nat
  max_retries : Nat
  deriving Repr, DecidableEq

/-! ### Page Fetcher (`_fetch_page`) -/

/-- What one request attempt observes: an HTTP response with a status code and body,
or a transport-level exception with a message. -/
inductive AttemptOutcome where
  | response (status : Nat) (body : String)
  | exn (message : String)

/-- Instrumented state threaded through `_fetch_page`: durations slept (in order),
the run's error list (`self.errors`), and the number of attempts started. -/
structure FetchState where
  sleeps : List Nat
  errors : List String
  attempts : Nat
  deriving Repr, DecidableEq

/-- The f-string `f"Attempt {attempt + 1} failed for {url}: {str(e)}"`. -/
def mkAttemptError (attempt : Nat) (url message : String) : String :=
  "Attempt " ++ toString (attempt + 1) ++ " failed for " ++ url ++ ": " ++ message

/-- The `for attempt in range(retries + 1)` loop of `_fetch_page`, with `fuel` the
number of loop iterations left (`retries + 1 - attempt`). On 200 the body is
returned; on 429 a `2 ^ attempt` sleep precedes the next iteration; any other
status only logs; an exception sleeps `2 ^ attempt` unless it was the final
attempt, in which case the error message is appended to the run's error list. -/
def fetchLoop (responses : Nat → AttemptOutcome) (url : String) (retries : Nat) :
    Nat → Nat → FetchState → Option String × FetchState
  | _, 0, s => (none, s)
  | attempt, fuel + 1, s =>
    let s1 : FetchState := { s with attempts := s.attempts + 1 }
    match responses attempt with
    | .response status body =>
      if status = 200 then (some body, s1)
      else if status = 429 then
        fetchLoop responses url retries (attempt + 1) fuel
          { s1 with sleeps := s1.sleeps ++ [2 ^ attempt] }
      else
        fetchLoop responses url retries (attempt + 1) fuel s1
    | .exn message =>
      if attempt = retries then
        (none, { s1 with errors := s1.errors ++ [mkAttemptError attempt url message] })
      else
        fetchLoop responses url retries (attempt + 1) fuel
          { s1 with sleeps := s1.sleeps ++ [2 ^ attempt] }

/-- `_fetch_page(url, retries)` run against the attempt-indexed outcomes `responses`,
starting from the run's current error list `errors0`. -/
def fetchPage (responses : Nat → AttemptOutcome) (url : String) (retries : Nat)
    (errors0 : List String) : Option String × FetchState :=
  fetchLoop responses url retries 0 (retries + 1) ⟨[], errors0, 0⟩

/-! ### Record Extractor (`_parse_book`, `_parse_page`, `_get_next_page_url`) -/

/-- An anchor element: `get('href')` is `none` when the attribute is absent. -/
structure LinkElem where
  href : Option String
  deriving Repr, DecidableEq

/-- A `div` inside the price container: its serialized markup (`str(div)`) and its
stripped text. -/
structure DivElem where
  html : String
  text : String
  deriving Repr, DecidableEq

/-- The element matched by the price selector: its `div` children in document order
(`find_all('div')`) and its own stripped text (the fallback). -/
structure PriceContainer where
  divs : List DivElem
  text : String
  deriving Repr, DecidableEq

/-- The element matched by the image selector, with its `src` and `data-src` attributes. -/
structure ImageElem where
  src : Option String
  dataSrc : Option String
  deriving Repr, DecidableEq

/-- One candidate product container, as the selectors of `_parse_book` and the
product filter of `_parse_page` see it. Each field models one selector result on
this element; `none` is a selector miss. -/
structure ProductElement where
  firstLink : Option LinkElem
  titleElem : Option String
  authorElem : Option String
  authorSectionLinks : Option (List String)
  priceElem : Option PriceContainer
  imageElem : Option ImageElem
  linkElem : Option LinkElem
  availabilityElem : Option String
  deriving Repr, DecidableEq

/-- One fetched page, as the page-level selectors see it: the candidate product
containers and the pagination anchor (if any). -/
structure PageHtml where
  productElements : List ProductElement
  nextLink : Option LinkElem
  deriving Repr, DecidableEq

/-- The author fallback of `_parse_book`: the first author link with nonempty text
inside the `.product-author` section. -/
def firstNonemptyLinkText : List String → Option String
  | [] => none
  | t :: ts => if t = "" then firstNonemptyLinkText ts else some t

/-- Author extraction of `_parse_book`: the primary selector's text when the element
exists, else the first nonempty `.product-author` link text. -/
def extractAuthor (el : ProductElement) : Option String :=
  match el.authorElem with
  | some a => some a
  | none =>
    match el.authorSectionLinks with
    | some links => firstNonemptyLinkText links
    | none => none

/-- The price loop of `_parse_book`: the first `div` whose text is nonempty, holds
`'Rp'`, and whose markup does not hold `'text-decoration:line-through'`. -/
def findCurrentPrice : List DivElem → Option String
  | [] => none
  | d :: ds =>
    if d.text != "" && strContains d.text "Rp"
        && !(strContains d.html "text-decoration:line-through")
    then some d.text
    else findCurrentPrice ds

/-- Price extraction of `_parse_book`: the preferred (non-struck-through) `div` text,
falling back to the container's own text when no `div` qualifies. -/
def extractPrice (priceContainer : Option PriceContainer) : Option String :=
  match priceContainer with
  | none => none
  | some pe =>
    match findCurrentPrice pe.divs with
    | some p => some p
    | none => some pe.text

/-- Locator normalization of `_parse_book`: a truthy reference not starting with
`http` is resolved against the site's base URL. -/
def normalizeUrl (base : String) (u : Option String) : Option String :=
  match u with
  | none => none
  | some s => if s != "" && !(strStartsWith s "http") then some (urljoin base s) else some s

/-- `_parse_book(book_element, category)`: all fields are extracted independently and
a `Book` is created only when the title is truthy. The second component is the list
of error messages this call appends to the run's error list: the only append in the
source sits in the `except` handler, and extraction over this structural element
model is total, so it is always empty — a missing title is a silent drop. -/
def parseBook (base : String) (el : ProductElement) (category : String) :
    Option Book × List String :=
  let author := extractAuthor el
  let price := extractPrice el.priceElem
  let image_url := normalizeUrl base
    (match el.imageElem with
      | some img => pyOrStr img.src img.dataSrc
      | none => none)
  let product_url := normalizeUrl base
    (match el.linkElem with
      | some l => l.href
      | none => none)
  let availability := el.availabilityElem
  match el.titleElem with
  | none => (none, [])
  | some t =>
    if t = "" then (none, [])
    else
      (some { title := t, author := author, price := price, image_url := image_url,
              product_url := product_url, availability := availability,
              category := some category }, [])

/-- The product filter of `_parse_page`: the element's first anchor must exist, carry
a truthy `href`, and that `href` must hold the product marker `'/p/'`. -/
def isActualBook (el : ProductElement) : Bool :=
  match el.firstLink with
  | none => false
  | some l =>
    match l.href with
    | none => false
    | some h => h != "" && strContains h "/p/"

/-- `_parse_page(html_content, category)`: filter candidates to actual products, parse
each, and keep the non-`None` books in order. -/
def parsePage (base : String) (page : PageHtml) (category : String) : List Book :=
  (page.productElements.filter isActualBook).filterMap
    (fun el => (parseBook base el category).1)

/-- `_get_next_page_url(html_content, current_url)`: the pagination anchor's truthy
`href`, resolved against the base URL when not absolute. -/
def getNextPageUrl (base : String) (page : PageHtml) : Option String :=
  match page.nextLink with
  | none => none
  | some l =>
    match l.href with
    | none => none
    | some u =>
      if u = "" then none
      else if strStartsWith u "http" then some u
      else some (urljoin base u)

/-- `_build_category_url(category_param, page)`: the fixed route and category query
parameters, plus a page parameter when `page > 1`. -/
def buildCategoryUrl (base categoryParam : String) (page : Nat) : String :=
  base ++ "?route=product%2Fcategory&anl=" ++ categoryParam ++
    (if page > 1 then "&page=" ++ toString page else "")

/-! ### Category Walker (`scrape_category`) -/

/-- Instrumented outcome of one category walk: the accumulated books, the final value
of `current_page`, the URLs passed to `_fetch_page` in order, and the inter-page
delays slept in order. -/
structure WalkResult where
  books : List Book
  finalPage : Nat
  fetched : List String
  sleeps : List Nat
  deriving Repr, DecidableEq

/-- The `while current_page <= max_pages` loop of `scrape_category`, with `fuel` the
number of iterations the page bound still allows (`max_pages + 1 - current_page`).
`fetch` abstracts `_fetch_page` composed with HTML parsing: `none` is a terminal
fetch failure. A failed fetch, an empty page, and a missing next-page locator each
stop the walk; otherwise the page's books are appended, the page counter advances,
and a positive configured delay is slept before the next iteration. -/
def walkLoop (fetch : String → Option PageHtml) (base : String) (delay : Nat)
    (categoryName categoryParam : String) :
    Nat → Nat → List Book → List String → List Nat → WalkResult
  | 0, currentPage, books, fetched, sleeps => ⟨books, currentPage, fetched, sleeps⟩
  | fuel + 1, currentPage, books, fetched, sleeps =>
    let url := buildCategoryUrl base categoryParam currentPage
    match fetch url with
    | none => ⟨books, currentPage, fetched ++ [url], sleeps⟩
    | some page =>
      let pageBooks := parsePage base page categoryName
      if pageBooks = [] then ⟨books, currentPage, fetched ++ [url], sleeps⟩
      else
        match getNextPageUrl base page with
        | none => ⟨books ++ pageBooks, currentPage, fetched ++ [url], sleeps⟩
        | some _ =>
          walkLoop fetch base delay categoryName categoryParam fuel (currentPage + 1)
            (books ++ pageBooks) (fetched ++ [url])
            (if delay > 0 then sleeps ++ [delay] else sleeps)

/-- `scrape_category(category_name, category_param, max_pages)` with an explicit page
bound: `current_page` starts at 1 and the loop runs while it stays `≤ maxPages`. -/
def walkCategory (fetch : String → Option PageHtml) (base : String) (delay : Nat)
    (categoryName categoryParam : String) (maxPages : Nat) : WalkResult :=
  walkLoop fetch base delay categoryName categoryParam maxPages 1 [] [] []

/-! ### Multi-Category Orchestrator (`scrape_multiple_categories`) -/

/-- `scrape_multiple_categories(categories, max_pages)`: the categories are walked in
insertion order; `walk` abstracts one category walk, `Except.error` being a raised
exception. A raising category contributes an empty list under its name and one
appended error message; the other categories are unaffected. -/
def scrapeMultipleCategories (walk : String → String → Except String (List Book)) :
    List (String × String) → List String → List (String × List Book) × List String
  | [], errors => ([], errors)
  | c :: cs, errors =>
    match walk c.1 c.2 with
    | .ok books =>
      let rest := scrapeMultipleCategories walk cs errors
      ((c.1, books) :: rest.1, rest.2)
    | .error e =>
      let rest := scrapeMultipleCategories walk cs
        (errors ++ ["Error scraping category " ++ c.1 ++ ": " ++ e])
      ((c.1, []) :: rest.1, rest.2)

/-! ### Result Aggregator (`run_scraper`) -/

/-- `category_params.get`-style resolution in `run_scraper`: a name not among the
configured categories is assumed to already be a parameter. -/
def lookupCategoryParam (site : SiteConfig) (categoryName : String) : String :=
  match site.category_params.find? (fun p => p.1 == categoryName) with
  | some p => p.2
  | none => categoryName

/-- `run_scraper(category_name, max_pages)`: walk the category, then assemble the
`ScrapingResult`. `maxPages = none` models passing `max_pages=None`; the walk
resolves it with `is None` while the `pages_scraped` estimate resolves it with
Python's `or` (so an explicit `0` also falls back there). `errors0` is the run's
error list (`self.errors`) at reporting time. -/
def runScraper (fetch : String → Option PageHtml) (site : SiteConfig)
    (cfg : ScraperConfig) (categoryName : String) (maxPages : Option Nat)
    (errors0 : List String) : ScrapingResult :=
  let categoryParam := lookupCategoryParam site categoryName
  let walk := walkCategory fetch site.base_url cfg.delay_between_requests
    categoryName categoryParam (maxPages.getD cfg.max_pages)
  let books := walk.books
  { site_name := site.name
    category := categoryName
    total_books := books.length
    pages_scraped := min (pyOrNat maxPages cfg.max_pages)
      (if books = [] then 1 else books.length / 20 + 1)
    books := books
    success := decide (books.length > 0)
    errors := errors0 }

/-- Stated from the specification's words, for comparison with `runScraper`:
`min(requestedMaxPages, ceil(count(records)/20))`, floored to at least 1. -/
def specPagesScraped (requestedMaxPages count : Nat) : Nat :=
  max (min requestedMaxPages ((count + 19) / 20)) 1

/-! ### Derived vocabulary for stating walker properties -/

/-- Page `p` of the category is a "continuing" page: its fetch succeeds, it yields at
least one record, and it exposes a next-page locator. -/
def continuesAt (fetch : String → Option PageHtml) (base categoryParam categoryName : String)
    (p : Nat) : Prop :=
  ∃ pg, fetch (buildCategoryUrl base categoryParam p) = some pg ∧
    parsePage base pg categoryName ≠ [] ∧ getNextPageUrl base pg ≠ none

/-- The records the extractor yields on page `p` of the category (empty when the
fetch fails). -/
def pageBooksAt (fetch : String → Option PageHtml) (base categoryParam categoryName : String)
    (p : Nat) : List Book :=
  match fetch (buildCategoryUrl base categoryParam p) with
  | some pg => parsePage base pg categoryName
  | none => []

/-- The concatenated records of `n` consecutive pages starting at page `a`. -/
def booksOnPages (fetch : String → Option PageHtml)
    (base categoryParam categoryName : String) : Nat → Nat → List Book
  | _, 0 => []
  | a, n + 1 =>
    pageBooksAt fetch base categoryParam categoryName a ++
      booksOnPages fetch base categoryParam categoryName (a + 1) n

/-- The URLs of `n` consecutive category pages starting at page `a`. -/
def urlsOnPages (base categoryParam : String) : Nat → Nat → List String
  | _, 0 => []
  | a, n + 1 => buildCategoryUrl base categoryParam a :: urlsOnPages base categoryParam (a + 1) n

/-- The exponential-backoff durations slept over `n` consecutive attempts starting at
attempt index `a`: `[2 ^ a, 2 ^ (a + 1), ...]`. -/
def backoffSleeps (a : Nat) : Nat → List Nat
  | 0 => []
  | n + 1 => 2 ^ a :: backoffSleeps (a + 1) n

/-! ### Concrete test environments -/

/-- A minimal candidate element that passes the product filter and carries title `t`. -/
def elemTitled (t : String) : ProductElement :=
  { firstLink := some ⟨some "/p/x"⟩, titleElem := some t, authorElem := none,
    authorSectionLinks := none, priceElem := none, imageElem := none,
    linkElem := none, availabilityElem := none }

/-- A candidate element that passes the product filter but has no title element. -/
def elemNoTitle : ProductElement :=
  { firstLink := some ⟨some "/p/x"⟩, titleElem := none, authorElem := none,
    authorSectionLinks := none, priceElem := none, imageElem := none,
    linkElem := none, availabilityElem := none }

/-- A page with two titled products and a next-page locator. -/
def pageOne : PageHtml := ⟨[elemTitled "A", elemTitled "B"], some ⟨some "/next2"⟩⟩

/-- A page with one titled product and no next-page locator. -/
def pageTwo : PageHtml := ⟨[elemTitled "C"], none⟩

/-- A page with twenty titled products and no next-page locator. -/
def pageTwenty : PageHtml := ⟨List.replicate 20 (elemTitled "T"), none⟩

/-- A site serving `pageOne` as page 1 and `pageTwo` as page 2 of category `p`. -/
def fetchTwoPages (u : String) : Option PageHtml :=
  if u = buildCategoryUrl "base" "p" 1 then some pageOne
  else if u = buildCategoryUrl "base" "p" 2 then some pageTwo
  else none

/-- A site serving `pageTwenty` as page 1 of category `c` and nothing else. -/
def fetchTwentyBooks (u : String) : Option PageHtml :=
  if u = buildCategoryUrl "base" "c" 1 then some pageTwenty else none

/-- A site answering every fetch with `pageOne` (which always has a next locator). -/
def fetchAlwaysPageOne (_ : String) : Option PageHtml :=
  some pageOne

/-- A struck-through original-price `div`. -/
def struckDiv : DivElem :=
  ⟨"<div style=text-decoration:line-through>Rp 100,000</div>", "Rp 100,000"⟩

/-- A plain current-price `div`. -/
def plainDiv : DivElem :=
  ⟨"<div>Rp 80,000</div>", "Rp 80,000"⟩

/-- A price container holding a struck-through original price followed by a plain
current price. -/
def discountedPriceBox : PriceContainer :=
  ⟨[struckDiv, plainDiv], "Rp 100,000Rp 80,000"⟩

/-! ## Helper lemmas -/

theorem backoffSleeps_length (a n : Nat) : (backoffSleeps a n).length = n := by
  induction n generalizing a with
  | zero => rfl
  | succ k ih => simp [backoffSleeps, ih]

/-- With every remaining attempt rate-limited (HTTP 429), the fetch loop consumes all
remaining attempts, sleeps the backoff after every one of them — the final attempt
included — and never touches the error list. -/
theorem fetchLoop_all_rate_limited (responses : Nat → AttemptOutcome) (body : Nat → String)
    (url : String) (retries : Nat) :
    ∀ (fuel attempt : Nat) (s : FetchState),
      (∀ i, attempt ≤ i → i < attempt + fuel → responses i = .response 429 (body i)) →
      fetchLoop responses url retries attempt fuel s =
        (none, ⟨s.sleeps ++ backoffSleeps attempt fuel, s.errors, s.attempts + fuel⟩) := by
  intro fuel
  induction fuel with
  | zero => intro attempt s _; simp [fetchLoop, backoffSleeps]
  | succ n ih =>
    intro attempt s h
    have h0 : responses attempt = AttemptOutcome.response 429 (body attempt) :=
      h attempt le_rfl (by omega)
    have hrec := ih (attempt + 1)
      ⟨s.sleeps ++ [2 ^ attempt], s.errors, s.attempts + 1⟩
      (fun i h1 h2 => h i (by omega) (by omega))
    rw [fetchLoop, h0]
    simp only [show (429 = 200) = False by simp, show (429 = 429) = True by simp,
      if_false, if_true, reduceIte]
    rw [hrec]
    simp [backoffSleeps, List.append_assoc]
    omega

/-- With every remaining attempt answered by a status other than 200 and 429, the
fetch loop consumes all remaining attempts and changes neither the sleep trace nor
the error list. -/
theorem fetchLoop_other_status (responses : Nat → AttemptOutcome) (status : Nat)
    (body : Nat → String) (url : String) (retries : Nat)
    (h200 : status ≠ 200) (h429 : status ≠ 429) :
    ∀ (fuel attempt : Nat) (s : FetchState),
      (∀ i, attempt ≤ i → i < attempt + fuel → responses i = .response status (body i)) →
      fetchLoop responses url retries attempt fuel s =
        (none, ⟨s.sleeps, s.errors, s.attempts + fuel⟩) := by
  intro fuel
  induction fuel with
  | zero => intro attempt s _; simp [fetchLoop]
  | succ n ih =>
    intro attempt s h
    have h0 : responses attempt = AttemptOutcome.response status (body attempt) :=
      h attempt le_rfl (by omega)
    have hrec := ih (attempt + 1)
      ⟨s.sleeps, s.errors, s.attempts + 1⟩
      (fun i h1 h2 => h i (by omega) (by omega))
    rw [fetchLoop, h0]
    simp only [if_neg h200, if_neg h429]
    rw [hrec]
    simp
    omega

/-- One walk iteration whose fetch fails terminally stops with the accumulator kept. -/
theorem walkLoop_fetch_none (fetch : String → Option PageHtml) (base : String) (delay : Nat)
    (cn cp : String) (fuel page : Nat) (books : List Book) (fetched : List String)
    (sleeps : List Nat) (hf : fetch (buildCategoryUrl base cp page) = none) :
    walkLoop fetch base delay cn cp (fuel + 1) page books fetched sleeps =
      ⟨books, page, fetched ++ [buildCategoryUrl base cp page], sleeps⟩ := by
  rw [walkLoop]
  simp [hf]

/-- One walk iteration extracting zero records stops with the accumulator kept. -/
theorem walkLoop_parse_empty (fetch : String → Option PageHtml) (base : String) (delay : Nat)
    (cn cp : String) (fuel page : Nat) (books : List Book) (fetched : List String)
    (sleeps : List Nat) (pg : PageHtml)
    (hf : fetch (buildCategoryUrl base cp page) = some pg)
    (hp : parsePage base pg cn = []) :
    walkLoop fetch base delay cn cp (fuel + 1) page books fetched sleeps =
      ⟨books, page, fetched ++ [buildCategoryUrl base cp page], sleeps⟩ := by
  rw [walkLoop]
  simp [hf, hp]

/-- One walk iteration with records but no next-page locator stops after appending
the page's records. -/
theorem walkLoop_no_next (fetch : String → Option PageHtml) (base : String) (delay : Nat)
    (cn cp : String) (fuel page : Nat) (books : List Book) (fetched : List String)
    (sleeps : List Nat) (pg : PageHtml)
    (hf : fetch (buildCategoryUrl base cp page) = some pg)
    (hp : parsePage base pg cn ≠ [])
    (hn : getNextPageUrl base pg = none) :
    walkLoop fetch base delay cn cp (fuel + 1) page books fetched sleeps =
      ⟨books ++ parsePage base pg cn, page, fetched ++ [buildCategoryUrl base cp page], sleeps⟩ := by
  rw [walkLoop]
  simp [hf, hp, hn]

/-- One walk iteration with records and a next-page locator appends the records,
advances the page counter, and sleeps the configured positive delay. -/
theorem walkLoop_continue_step (fetch : String → Option PageHtml) (base : String)
    (delay : Nat) (cn cp : String) (fuel page : Nat) (books : List Book)
    (fetched : List String) (sleeps : List Nat) (pg : PageHtml) (u : String)
    (hf : fetch (buildCategoryUrl base cp page) = some pg)
    (hp : parsePage base pg cn ≠ [])
    (hn : getNextPageUrl base pg = some u) :
    walkLoop fetch base delay cn cp (fuel + 1) page books fetched sleeps =
      walkLoop fetch base delay cn cp fuel (page + 1) (books ++ parsePage base pg cn)
        (fetched ++ [buildCategoryUrl base cp page])
        (if delay > 0 then sleeps ++ [delay] else sleeps) := by
  rw [walkLoop]
  simp [hf, hp, hn]

/-- Walking across a block of `j` consecutive continuing pages appends those pages'
records, URLs and (when the delay is positive) `j` slept delays to the accumulators,
consuming `j` units of the page budget. -/
theorem walkLoop_continues_prefix (fetch : String → Option PageHtml) (base : String)
    (delay : Nat) (cn cp : String) :
    ∀ (j page fuel : Nat) (books : List Book) (fetched : List String) (sleeps : List Nat),
      j ≤ fuel →
      (∀ i, page ≤ i → i < page + j → continuesAt fetch base cp cn i) →
      walkLoop fetch base delay cn cp fuel page books fetched sleeps =
        walkLoop fetch base delay cn cp (fuel - j) (page + j)
          (books ++ booksOnPages fetch base cp cn page j)
          (fetched ++ urlsOnPages base cp page j)
          (if delay > 0 then sleeps ++ List.replicate j delay else sleeps) := by
  intro j
  induction j with
  | zero =>
    intro page fuel books fetched sleeps _ _
    simp [booksOnPages, urlsOnPages]
  | succ n ih =>
    intro page fuel books fetched sleeps hj hcont
    obtain ⟨f, rfl⟩ : ∃ f, fuel = f + 1 := ⟨fuel - 1, by omega⟩
    obtain ⟨pg, hf, hp, hn⟩ := hcont page le_rfl (by omega)
    obtain ⟨u, hu⟩ := Option.ne_none_iff_exists'.mp hn
    rw [walkLoop_continue_step fetch base delay cn cp f page books fetched sleeps pg u hf hp hu]
    rw [ih (page + 1) f (books ++ parsePage base pg cn)
      (fetched ++ [buildCategoryUrl base cp page])
      (if delay > 0 then sleeps ++ [delay] else sleeps) (by omega)
      (fun i h1 h2 => hcont i (by omega) (by omega))]
    have hpb : pageBooksAt fetch base cp cn page = parsePage base pg cn := by
      simp [pageBooksAt, hf]
    have hbooks : (books ++ parsePage base pg cn) ++ booksOnPages fetch base cp cn (page + 1) n
        = books ++ booksOnPages fetch base cp cn page (n + 1) := by
      rw [booksOnPages, hpb, List.append_assoc]
    have hfetched : (fetched ++ [buildCategoryUrl base cp page]) ++ urlsOnPages base cp (page + 1) n
        = fetched ++ urlsOnPages base cp page (n + 1) := by
      rw [urlsOnPages, List.append_assoc]
      rfl
    have hsleeps : (if delay > 0 then (if delay > 0 then sleeps ++ [delay] else sleeps)
          ++ List.replicate n delay else (if delay > 0 then sleeps ++ [delay] else sleeps))
        = (if delay > 0 then sleeps ++ List.replicate (n + 1) delay else sleeps) := by
      by_cases hd : delay > 0
      · simp [hd, List.replicate_succ, List.append_assoc]
      · simp [hd]
    have hfuel : f - n = f + 1 - (n + 1) := by omega
    have hpage : page + 1 + n = page + (n + 1) := by omega
    rw [hbooks, hfetched, hsleeps, hfuel, hpage]

theorem urlsOnPages_length (base cp : String) : ∀ (a n : Nat),
    (urlsOnPages base cp a n).length = n := by
  intro a n
  induction n generalizing a with
  | zero => rfl
  | succ m ih => simp [urlsOnPages, ih]

theorem urlsOnPages_snoc (base cp : String) : ∀ (a n : Nat),
    urlsOnPages base cp a n ++ [buildCategoryUrl base cp (a + n)] =
      urlsOnPages base cp a (n + 1) := by
  have hcons : ∀ (a m : Nat), urlsOnPages base cp a (m + 1) =
      buildCategoryUrl base cp a :: urlsOnPages base cp (a + 1) m := fun _ _ => rfl
  intro a n
  induction n generalizing a with
  | zero => simp [urlsOnPages]
  | succ m ih =>
    rw [hcons a m, hcons a (m + 1), List.cons_append,
      show a + (m + 1) = (a + 1) + m from by omega, ih (a + 1)]

/-- When every page up to the bound continues, the walk fetches pages `1..maxPages`
and, with a positive delay, sleeps once after every one of them — the last included,
since the sleep precedes the loop's bound re-check. -/
theorem walkCategory_all_continue (fetch : String → Option PageHtml) (base : String)
    (delay : Nat) (cn cp : String) (maxPages : Nat)
    (hall : ∀ i, 1 ≤ i → i ≤ maxPages → continuesAt fetch base cp cn i) :
    (walkCategory fetch base delay cn cp maxPages).fetched =
      urlsOnPages base cp 1 maxPages ∧
    (walkCategory fetch base delay cn cp maxPages).sleeps =
      (if delay > 0 then List.replicate maxPages delay else []) := by
  have htr := walkLoop_continues_prefix fetch base delay cn cp maxPages 1 maxPages [] [] []
    le_rfl (fun i h1 h2 => hall i h1 (by omega))
  rw [walkCategory, htr, Nat.sub_self, walkLoop]
  constructor <;> simp

/-- When the pages before `k` continue and page `k` does not, the walk fetches pages
`1..k` and, with a positive delay, sleeps once after each of the `k - 1` continuing
pages and never after page `k`. -/
theorem walkCategory_stops_at (fetch : String → Option PageHtml) (base : String)
    (delay : Nat) (cn cp : String) (maxPages k : Nat)
    (hk1 : 1 ≤ k) (hkm : k ≤ maxPages)
    (hpre : ∀ i, 1 ≤ i → i < k → continuesAt fetch base cp cn i)
    (hstop : ¬ continuesAt fetch base cp cn k) :
    (walkCategory fetch base delay cn cp maxPages).fetched = urlsOnPages base cp 1 k ∧
    (walkCategory fetch base delay cn cp maxPages).sleeps =
      (if delay > 0 then List.replicate (k - 1) delay else []) := by
  have htr := walkLoop_continues_prefix fetch base delay cn cp (k - 1) 1 maxPages [] [] []
    (by omega) (fun i h1 h2 => hpre i h1 (by omega))
  have hpk : 1 + (k - 1) = k := by omega
  obtain ⟨f, hfuel⟩ : ∃ f, maxPages - (k - 1) = f + 1 := ⟨maxPages - k, by omega⟩
  rw [hpk, hfuel] at htr
  have hfet : urlsOnPages base cp 1 (k - 1) ++ [buildCategoryUrl base cp k] =
      urlsOnPages base cp 1 k := by
    have h := urlsOnPages_snoc base cp 1 (k - 1)
    rw [show 1 + (k - 1) = k from by omega] at h
    rw [h, show k - 1 + 1 = k from by omega]
  rcases hco : fetch (buildCategoryUrl base cp k) with _ | pg
  · rw [walkCategory, htr, walkLoop_fetch_none fetch base delay cn cp f k _ _ _ hco]
    constructor
    · simpa using hfet
    · simp
  · by_cases hp : parsePage base pg cn = []
    · rw [walkCategory, htr,
        walkLoop_parse_empty fetch base delay cn cp f k _ _ _ pg hco hp]
      constructor
      · simpa using hfet
      · simp
    · rcases hn : getNextPageUrl base pg with _ | u
      · rw [walkCategory, htr,
          walkLoop_no_next fetch base delay cn cp f k _ _ _ pg hco hp hn]
        constructor
        · simpa using hfet
        · simp
      · exact absurd ⟨pg, hco, hp, by rw [hn]; exact Option.some_ne_none u⟩ hstop

/-- A walk whose very first fetch fails terminally accumulates no records. -/
theorem walkCategory_fetch_fail_first (fetch : String → Option PageHtml) (base : String)
    (delay : Nat) (cn cp : String) (maxPages : Nat)
    (h : fetch (buildCategoryUrl base cp 1) = none) :
    (walkCategory fetch base delay cn cp maxPages).books = [] := by
  cases maxPages with
  | zero => rfl
  | succ n =>
    rw [walkCategory, walkLoop_fetch_none fetch base delay cn cp n 1 [] [] [] h]

/-- No qualifying `div` means the price loop of `_parse_book` finds nothing. -/
theorem findCurrentPrice_eq_none (ds : List DivElem)
    (h : ∀ d ∈ ds, d.text = "" ∨ strContains d.text "Rp" = false ∨
      strContains d.html "text-decoration:line-through" = true) :
    findCurrentPrice ds = none := by
  induction ds with
  | nil => rfl
  | cons d ds ih =>
    have hd := h d (by simp)
    have hcond : (d.text != "" && strContains d.text "Rp"
        && !(strContains d.html "text-decoration:line-through")) = false := by
      rcases hd with h' | h' | h' <;> simp [h']
    rw [findCurrentPrice, hcond]
    exact ih (fun x hx => h x (by simp [hx]))

/-! ## Claim theorems -/

/-- Claim C4: with the pages before `k` all continuing (fetch succeeds, records
extracted, next-page locator present) and `1 ≤ k ≤ maxPages`, the category walk
stops at whichever condition fires first on page `k` and returns exactly the records
accumulated so far: a terminal fetch failure or an empty extraction on page `k`
keeps the records of pages `1..k-1`; a missing next-page locator on page `k` keeps
the records of pages `1..k` (so with `maxPages = 3` and no locator on page 2, pages
1–2 only); and when every page up to `maxPages` continues, the page counter
exceeding `maxPages` stops the walk with the records of pages `1..maxPages`. -/
theorem scrape_category_stop_conditions (fetch : String → Option PageHtml) (base : String)
    (delay : Nat) (cn cp : String) (maxPages k : Nat)
    (hk1 : 1 ≤ k) (hkm : k ≤ maxPages)
    (hpre : ∀ i, 1 ≤ i → i < k → continuesAt fetch base cp cn i) :
    (fetch (buildCategoryUrl base cp k) = none →
        (walkCategory fetch base delay cn cp maxPages).books =
          booksOnPages fetch base cp cn 1 (k - 1)) ∧
    (∀ pg, fetch (buildCategoryUrl base cp k) = some pg → parsePage base pg cn = [] →
        (walkCategory fetch base delay cn cp maxPages).books =
          booksOnPages fetch base cp cn 1 (k - 1)) ∧
    (∀ pg, fetch (buildCategoryUrl base cp k) = some pg → parsePage base pg cn ≠ [] →
        getNextPageUrl base pg = none →
        (walkCategory fetch base delay cn cp maxPages).books =
          booksOnPages fetch base cp cn 1 (k - 1) ++ parsePage base pg cn) ∧
    (k = maxPages → continuesAt fetch base cp cn k →
        (walkCategory fetch base delay cn cp maxPages).books =
          booksOnPages fetch base cp cn 1 maxPages) := by
  have htrans := walkLoop_continues_prefix fetch base delay cn cp (k - 1) 1 maxPages [] [] []
    (by omega) (by intro i h1 h2; exact hpre i h1 (by omega))
  have hpk : 1 + (k - 1) = k := by omega
  obtain ⟨f, hfuel⟩ : ∃ f, maxPages - (k - 1) = f + 1 := ⟨maxPages - k, by omega⟩
  rw [hpk, hfuel] at htrans
  refine ⟨?_, ?_, ?_, ?_⟩
  · intro hf
    rw [walkCategory, htrans,
      walkLoop_fetch_none fetch base delay cn cp f k _ _ _ hf]
    simp
  · intro pg hf hp
    rw [walkCategory, htrans,
      walkLoop_parse_empty fetch base delay cn cp f k _ _ _ pg hf hp]
    simp
  · intro pg hf hp hn
    rw [walkCategory, htrans,
      walkLoop_no_next fetch base delay cn cp f k _ _ _ pg hf hp hn]
    simp
  · intro hkeq hcont
    subst hkeq
    have hall : ∀ i, 1 ≤ i → i < 1 + k → continuesAt fetch base cp cn i := by
      intro i h1 h2
      rcases Nat.lt_or_ge i k with h | h
      · exact hpre i h1 h
      · have hik : i = k := by omega
        rw [hik]
        exact hcont
    have htrans2 := walkLoop_continues_prefix fetch base delay cn cp k 1 k [] [] []
      le_rfl hall
    rw [walkCategory, htrans2, Nat.sub_self]
    rw [walkLoop]
    simp

/-- Witness for `scrape_category_stop_conditions`: `maxPages = 3`, page 1 continues,
page 2 has records but no next-page locator — the walk returns the records of pages
1–2 only. -/
theorem scrape_category_stop_conditions_witness :
    (walkCategory fetchTwoPages "base" 2 "cat" "p" 3).books =
      booksOnPages fetchTwoPages "base" "p" "cat" 1 1 ++ parsePage "base" pageTwo "cat" := by
  have hpre : ∀ i, 1 ≤ i → i < 2 → continuesAt fetchTwoPages "base" "p" "cat" i := by
    intro i h1 h2
    have hi : i = 1 := by omega
    rw [hi]
    exact ⟨pageOne, rfl, by decide, by decide⟩
  exact (scrape_category_stop_conditions fetchTwoPages "base" 2 "cat" "p" 3 2
    (by omega) (by omega) hpre).2.2.1 pageTwo rfl (by decide) rfl

/-- Claim C8, corrected at this concrete input: with `maxPages = 1`, a positive
configured delay, and page 1 yielding records and a next-page locator, the walk
performs exactly one fetch yet still sleeps the inter-page delay once — after what
turns out to be the final page, with no further iteration following — contrary to
the claim that the suspension occurs only when another iteration follows. -/
theorem walk_sleep_after_final_page_counterexample :
    (walkCategory fetchAlwaysPageOne "base" 2 "cat" "p" 1).sleeps = [2] ∧
    (walkCategory fetchAlwaysPageOne "base" 2 "cat" "p" 1).fetched =
      [buildCategoryUrl "base" "p" 1] :=
  ⟨rfl, rfl⟩

/-- Claim C8, amended: with a positive configured delay, the walk of a category
fetches the consecutive pages `1..n` (where `n` is its fetch count), every fetched
page before the last yielded records and a next-page locator, and the inter-page
delay is slept exactly once after each such page — `n` sleeps when the final fetched
page also yielded records and a locator, which happens exactly when the walk stops
because the page counter exceeds `maxPages` (so `n = maxPages`), and `n - 1` sleeps
otherwise; in particular the sleep count never exceeds the fetch count, but a sleep
may follow the final page. -/
theorem walk_delay_sleeps_exact (fetch : String → Option PageHtml) (base : String)
    (delay : Nat) (cn cp : String) (maxPages : Nat) (r : WalkResult)
    (hd : 0 < delay) (hr : r = walkCategory fetch base delay cn cp maxPages) :
    r.fetched = urlsOnPages base cp 1 r.fetched.length ∧
    r.sleeps.length ≤ r.fetched.length ∧
    (∀ i, 1 ≤ i → i < r.fetched.length → continuesAt fetch base cp cn i) ∧
    ((continuesAt fetch base cp cn r.fetched.length ∧ r.fetched.length = maxPages ∧
        r.sleeps = List.replicate r.fetched.length delay) ∨
      (¬ continuesAt fetch base cp cn r.fetched.length ∧
        r.sleeps = List.replicate (r.fetched.length - 1) delay)) := by
  subst hr
  classical
  by_cases hall : ∀ i, 1 ≤ i → i ≤ maxPages → continuesAt fetch base cp cn i
  · obtain ⟨hfd, hsl⟩ := walkCategory_all_continue fetch base delay cn cp maxPages hall
    rw [if_pos hd] at hsl
    refine ⟨?_, ?_, ?_, ?_⟩
    · rw [hfd, urlsOnPages_length]
    · rw [hfd, hsl, urlsOnPages_length]
      simp
    · rw [hfd, urlsOnPages_length]
      intro i h1 h2
      exact hall i h1 (by omega)
    · rw [hfd, hsl, urlsOnPages_length]
      rcases Nat.eq_zero_or_pos maxPages with h0 | hpos
      · subst h0
        rcases Classical.em (continuesAt fetch base cp cn 0) with hc | hc
        · exact Or.inl ⟨hc, rfl, rfl⟩
        · exact Or.inr ⟨hc, rfl⟩
      · exact Or.inl ⟨hall maxPages hpos le_rfl, rfl, rfl⟩
  · push_neg at hall
    have hex : ∃ i, 1 ≤ i ∧ i ≤ maxPages ∧ ¬ continuesAt fetch base cp cn i := hall
    have hkspec := Nat.find_spec hex
    have hpre : ∀ i, 1 ≤ i → i < Nat.find hex → continuesAt fetch base cp cn i := by
      intro i h1 h2
      by_contra hc
      have him : i ≤ maxPages := by omega
      exact Nat.find_min hex h2 ⟨h1, him, hc⟩
    obtain ⟨hfd, hsl⟩ := walkCategory_stops_at fetch base delay cn cp maxPages
      (Nat.find hex) hkspec.1 hkspec.2.1 hpre hkspec.2.2
    rw [if_pos hd] at hsl
    refine ⟨?_, ?_, ?_, Or.inr ⟨?_, ?_⟩⟩
    · rw [hfd, urlsOnPages_length]
    · rw [hfd, hsl, urlsOnPages_length]
      simp only [List.length_replicate]
      omega
    · rw [hfd, urlsOnPages_length]
      exact hpre
    · rw [hfd, urlsOnPages_length]
      exact hkspec.2.2
    · rw [hfd, hsl, urlsOnPages_length]

/-- Witness for `walk_delay_sleeps_exact` at a concrete one-page walk: the fetched
URLs are page 1's URL and the single sleep stays within the fetch count. -/
theorem walk_delay_sleeps_exact_witness :
    (walkCategory fetchAlwaysPageOne "base" 2 "cat" "p" 1).fetched =
      urlsOnPages "base" "p" 1
        (walkCategory fetchAlwaysPageOne "base" 2 "cat" "p" 1).fetched.length ∧
    (walkCategory fetchAlwaysPageOne "base" 2 "cat" "p" 1).sleeps.length ≤
      (walkCategory fetchAlwaysPageOne "base" 2 "cat" "p" 1).fetched.length :=
  ⟨(walk_delay_sleeps_exact fetchAlwaysPageOne "base" 2 "cat" "p" 1
      (walkCategory fetchAlwaysPageOne "base" 2 "cat" "p" 1) (by decide) rfl).1,
    (walk_delay_sleeps_exact fetchAlwaysPageOne "base" 2 "cat" "p" 1
      (walkCategory fetchAlwaysPageOne "base" 2 "cat" "p" 1) (by decide) rfl).2.1⟩

/-- Claim C2, corrected at this concrete input: with both attempts answered by HTTP
500 and `maxRetries = 1`, `_fetch_page` consumes both attempts but performs no
backoff sleep between them and appends nothing to the run's error list on
exhaustion — contrary to the claim that such statuses are handled identically to a
transport error (which would sleep `2 ^ 0` between the attempts and append one error
message at exhaustion). -/
theorem fetch_other_status_counterexample :
    (fetchPage (fun _ => AttemptOutcome.response 500 "") "u" 1 []).2.sleeps = [] ∧
    (fetchPage (fun _ => AttemptOutcome.response 500 "") "u" 1 []).2.errors = [] ∧
    (fetchPage (fun _ => AttemptOutcome.response 500 "") "u" 1 []).2.attempts = 2 :=
  ⟨rfl, rfl, rfl⟩

/-- Claim C2, amended: on an HTTP status other than 200 and 429 the fetcher consumes
an attempt but, unlike on a transport error, performs no backoff sleep and appends
nothing to the run's error list; exhausting the attempt budget on such statuses
returns failure with the sleep trace and error list unchanged. -/
theorem fetch_other_status_no_backoff (status : Nat) (body : Nat → String) (url : String)
    (retries : Nat) (errors0 : List String) (h200 : status ≠ 200) (h429 : status ≠ 429) :
    fetchPage (fun i => .response status (body i)) url retries errors0 =
      (none, ⟨[], errors0, retries + 1⟩) := by
  simpa [fetchPage] using
    fetchLoop_other_status (fun i => .response status (body i)) status body url retries
      h200 h429 (retries + 1) 0 ⟨[], errors0, 0⟩ (fun i _ _ => rfl)

/-- Witness for `fetch_other_status_no_backoff` at status 503 with `maxRetries = 2`. -/
theorem fetch_other_status_no_backoff_witness :
    fetchPage (fun _ => AttemptOutcome.response 503 "") "u2" 2 [] = (none, ⟨[], [], 3⟩) :=
  fetch_other_status_no_backoff 503 (fun _ => "") "u2" 2 [] (by decide) (by decide)

/-- Claim C3: with `maxRetries = 3` and every attempt raising a transport-level
failure, `_fetch_page` makes exactly 4 attempts (indices 0..3), sleeps
`2 ^ attempt` after each of the three non-final failed attempts, and appends exactly
one error message — produced on the final attempt — to the run's error list. -/
theorem fetch_transport_exhaustion_retries (message : Nat → String) (url : String)
    (errors0 : List String) :
    fetchPage (fun i => .exn (message i)) url 3 errors0 =
      (none, ⟨[1, 2, 4], errors0 ++ [mkAttemptError 3 url (message 3)], 4⟩) :=
  rfl

/-- Claim C10: with every attempt rate-limited (HTTP 429) and any retry budget,
`_fetch_page` sleeps the backoff after every attempt — `2 ^ maxRetries` after the
final one included, although no further attempt follows — and returns failure with
no entry appended to the run's error list. -/
theorem fetch_rate_limit_final_sleep (responses : Nat → AttemptOutcome)
    (body : Nat → String) (url : String) (retries : Nat) (errors0 : List String)
    (h : ∀ i, i ≤ retries → responses i = .response 429 (body i)) :
    fetchPage responses url retries errors0 =
      (none, ⟨backoffSleeps 0 (retries + 1), errors0, retries + 1⟩) ∧
    (fetchPage responses url retries errors0).2.sleeps.length = retries + 1 := by
  have main := fetchLoop_all_rate_limited responses body url retries (retries + 1) 0
    ⟨[], errors0, 0⟩ (fun i _ h2 => h i (by omega))
  refine ⟨by simpa [fetchPage] using main, ?_⟩
  rw [fetchPage, main]
  simp [backoffSleeps_length]

/-- Witness for `fetch_rate_limit_final_sleep`: with `maxRetries = 1` and both
attempts rate-limited, the sleep trace is `[1, 2]` — the final `2 = 2 ^ 1` slept
after the last attempt — and the error list stays empty. -/
theorem fetch_rate_limit_final_sleep_witness :
    fetchPage (fun _ => AttemptOutcome.response 429 "") "u" 1 [] = (none, ⟨[1, 2], [], 2⟩) :=
  (fetch_rate_limit_final_sleep (fun _ => AttemptOutcome.response 429 "") (fun _ => "")
    "u" 1 [] (fun _ _ => rfl)).1

/-- Claim C1, corrected at this concrete input: a run whose walk accumulates exactly
20 records with `requestedMaxPages = 5` reports `pages_scraped = min(5, 20 // 20 + 1)
= 2`, while the claimed formula `min(5, ceil(20 / 20))` floored to at least 1 gives
1 — the code uses `floor(count / 20) + 1`, not `ceil(count / 20)`. -/
theorem run_scraper_pages_scraped_counterexample :
    (runScraper fetchTwentyBooks ⟨"s", "base", []⟩ ⟨5, 0, 3⟩ "c" (some 5) []).pages_scraped ≠
      specPagesScraped 5
        (runScraper fetchTwentyBooks ⟨"s", "base", []⟩ ⟨5, 0, 3⟩ "c" (some 5) []).total_books := by
  decide

/-- Claim C1, amended: for a run over a category with `requestedMaxPages = m ≥ 1`,
the reported `pages_scraped` equals `min(m, floor(count / 20) + 1)` when the walk
accumulated `count > 0` records and `min(m, 1)` when it accumulated none; in
particular it is always at least 1 and at most `m`. -/
theorem run_scraper_pages_scraped (fetch : String → Option PageHtml) (site : SiteConfig)
    (cfg : ScraperConfig) (categoryName : String) (m : Nat) (errors0 : List String)
    (hm : 0 < m) :
    (runScraper fetch site cfg categoryName (some m) errors0).pages_scraped =
      min m
        (if (walkCategory fetch site.base_url cfg.delay_between_requests categoryName
            (lookupCategoryParam site categoryName) m).books.length = 0 then 1
         else (walkCategory fetch site.base_url cfg.delay_between_requests categoryName
            (lookupCategoryParam site categoryName) m).books.length / 20 + 1) ∧
    1 ≤ (runScraper fetch site cfg categoryName (some m) errors0).pages_scraped ∧
    (runScraper fetch site cfg categoryName (some m) errors0).pages_scraped ≤ m := by
  have hpy : pyOrNat (some m) cfg.max_pages = m := by
    simp [pyOrNat, hm.ne']
  have hkey : (runScraper fetch site cfg categoryName (some m) errors0).pages_scraped =
      min m
        (if (walkCategory fetch site.base_url cfg.delay_between_requests categoryName
            (lookupCategoryParam site categoryName) m).books = [] then 1
         else (walkCategory fetch site.base_url cfg.delay_between_requests categoryName
            (lookupCategoryParam site categoryName) m).books.length / 20 + 1) := by
    simp [runScraper, hpy]
  refine ⟨?_, ?_, ?_⟩
  · rw [hkey]
    by_cases hb : (walkCategory fetch site.base_url cfg.delay_between_requests categoryName
        (lookupCategoryParam site categoryName) m).books = []
    · simp [hb]
    · simp [hb, List.length_eq_zero]
  · rw [hkey]
    refine Nat.le_min.mpr ⟨hm, ?_⟩
    split
    · exact le_rfl
    · exact Nat.le_add_left 1 _
  · rw [hkey]
    exact Nat.min_le_left _ _

/-- Witness for `run_scraper_pages_scraped` at the 20-record run. -/
theorem run_scraper_pages_scraped_witness :
    1 ≤ (runScraper fetchTwentyBooks ⟨"s", "base", []⟩ ⟨5, 0, 3⟩ "c" (some 5) []).pages_scraped ∧
    (runScraper fetchTwentyBooks ⟨"s", "base", []⟩ ⟨5, 0, 3⟩ "c" (some 5) []).pages_scraped ≤ 5 :=
  ⟨(run_scraper_pages_scraped fetchTwentyBooks ⟨"s", "base", []⟩ ⟨5, 0, 3⟩ "c" 5 []
      (by decide)).2.1,
   (run_scraper_pages_scraped fetchTwentyBooks ⟨"s", "base", []⟩ ⟨5, 0, 3⟩ "c" 5 []
      (by decide)).2.2⟩

/-- Claim C5: every produced report has `total_books` equal to the length of its
record sequence — which is exactly the sequence the category walk accumulated — and
`success` holds exactly when that sequence is nonempty; in particular, a terminal
fetch failure on page 1 yields an empty record sequence and `success = false`. -/
theorem run_scraper_success_totals (fetch : String → Option PageHtml) (site : SiteConfig)
    (cfg : ScraperConfig) (categoryName : String) (maxPages : Option Nat)
    (errors0 : List String) :
    (runScraper fetch site cfg categoryName maxPages errors0).total_books =
      (runScraper fetch site cfg categoryName maxPages errors0).books.length ∧
    (runScraper fetch site cfg categoryName maxPages errors0).books =
      (walkCategory fetch site.base_url cfg.delay_between_requests categoryName
        (lookupCategoryParam site categoryName) (maxPages.getD cfg.max_pages)).books ∧
    ((runScraper fetch site cfg categoryName maxPages errors0).success = true ↔
      (runScraper fetch site cfg categoryName maxPages errors0).books ≠ []) ∧
    (fetch (buildCategoryUrl site.base_url (lookupCategoryParam site categoryName) 1) = none →
      (runScraper fetch site cfg categoryName maxPages errors0).total_books = 0 ∧
      (runScraper fetch site cfg categoryName maxPages errors0).success = false) := by
  refine ⟨rfl, rfl, ?_, ?_⟩
  · simp [runScraper, List.length_pos]
  · intro h
    have hb := walkCategory_fetch_fail_first fetch site.base_url
      cfg.delay_between_requests categoryName (lookupCategoryParam site categoryName)
      (maxPages.getD cfg.max_pages) h
    constructor
    · simp [runScraper, hb]
    · simp [runScraper, hb]

/-- Witness for `run_scraper_success_totals`: a site that fails every fetch yields a
report with `success = false` and no records. -/
theorem run_scraper_success_totals_witness :
    (runScraper (fun _ => none) ⟨"s", "base", []⟩ ⟨5, 0, 3⟩ "c" none []).total_books = 0 ∧
    (runScraper (fun _ => none) ⟨"s", "base", []⟩ ⟨5, 0, 3⟩ "c" none []).success = false :=
  (run_scraper_success_totals (fun _ => none) ⟨"s", "base", []⟩ ⟨5, 0, 3⟩ "c" none []).2.2.2
    rfl

/-- Claim C6: every record the extractor emits carries a nonempty title; a candidate
whose title field is missing (or empty) produces no record and appends nothing to
the run's error list — over this structural element model field extraction is total,
so the only error append in `_parse_book` (its exception handler) never fires. -/
theorem extractor_title_required :
    (∀ (base : String) (el : ProductElement) (category : String) (b : Book),
        (parseBook base el category).1 = some b → b.title ≠ "") ∧
    (∀ (base : String) (el : ProductElement) (category : String),
        pyTruthy el.titleElem = false → parseBook base el category = (none, [])) ∧
    (∀ (base : String) (page : PageHtml) (category : String) (b : Book),
        b ∈ parsePage base page category → b.title ≠ "") := by
  have h1 : ∀ (base : String) (el : ProductElement) (category : String) (b : Book),
      (parseBook base el category).1 = some b → b.title ≠ "" := by
    intro base el category b hb
    simp only [parseBook] at hb
    cases ht : el.titleElem with
    | none => rw [ht] at hb; simp at hb
    | some t =>
      rw [ht] at hb
      by_cases h0 : t = ""
      · simp [h0] at hb
      · simp only [if_neg h0] at hb
        simp at hb
        rw [← hb]
        exact h0
  refine ⟨h1, ?_, ?_⟩
  · intro base el category h
    cases ht : el.titleElem with
    | none => simp [parseBook, ht]
    | some t =>
      rw [ht] at h
      simp [pyTruthy] at h
      simp [parseBook, ht, h]
  · intro base page category b hb
    simp only [parsePage, List.mem_filterMap] at hb
    obtain ⟨el, _, hel⟩ := hb
    exact h1 base el category b hel

/-- Witness for `extractor_title_required`: a candidate with no title element is
dropped silently. -/
theorem extractor_title_required_witness :
    parseBook "base" elemNoTitle "cat" = (none, []) :=
  extractor_title_required.2.1 "base" elemNoTitle "cat" rfl

/-- Claim C7: when the price container holds a struck-through original-price `div`
and a plain current-price `div` (in either order), `_parse_book` extracts the plain
one's text; and when no `div` qualifies as a current price, it falls back to the
container's own text. -/
theorem price_selection_policy :
    (∀ (pc : PriceContainer) (d1 d2 : DivElem),
        (pc.divs = [d1, d2] ∨ pc.divs = [d2, d1]) →
        strContains d1.html "text-decoration:line-through" = true →
        strContains d2.html "text-decoration:line-through" = false →
        d2.text ≠ "" →
        strContains d2.text "Rp" = true →
        extractPrice (some pc) = some d2.text) ∧
    (∀ pc : PriceContainer,
        (∀ d ∈ pc.divs, d.text = "" ∨ strContains d.text "Rp" = false ∨
          strContains d.html "text-decoration:line-through" = true) →
        extractPrice (some pc) = some pc.text) := by
  constructor
  · intro pc d1 d2 hdivs h1 h2 hne hrp
    have hcond1 : (d1.text != "" && strContains d1.text "Rp"
        && !(strContains d1.html "text-decoration:line-through")) = false := by
      simp [h1]
    have hcond2 : (d2.text != "" && strContains d2.text "Rp"
        && !(strContains d2.html "text-decoration:line-through")) = true := by
      simp [h2, hrp, hne]
    rcases hdivs with h | h
    · simp [extractPrice, h, findCurrentPrice, hcond1, hcond2]
    · simp [extractPrice, h, findCurrentPrice, hcond2]
  · intro pc h
    simp [extractPrice, findCurrentPrice_eq_none pc.divs h]

/-- Witness for `price_selection_policy`: the discounted container yields the plain
current price `"Rp 80,000"`, not the struck-through `"Rp 100,000"`. -/
theorem price_selection_policy_witness :
    extractPrice (some discountedPriceBox) = some "Rp 80,000" :=
  price_selection_policy.1 discountedPriceBox struckDiv plainDiv (Or.inl rfl)
    (by decide) (by decide) (by decide) (by decide)

/-- Claim C9: the orchestrator returns one entry per input category, in insertion
order and under the same keys; a category whose walk throws contributes an empty
record sequence and appends one error message to the run's error list, while every
other category's full record sequence still appears in the result. -/
theorem multi_category_isolation (walk : String → String → Except String (List Book))
    (categories : List (String × String)) (errors0 : List String) :
    (scrapeMultipleCategories walk categories errors0).1 =
      categories.map (fun c => (c.1,
        match walk c.1 c.2 with
        | .ok bs => bs
        | .error _ => [])) ∧
    (scrapeMultipleCategories walk categories errors0).1.map Prod.fst =
      categories.map Prod.fst ∧
    (scrapeMultipleCategories walk categories errors0).2 =
      errors0 ++ categories.filterMap (fun c =>
        match walk c.1 c.2 with
        | .ok _ => none
        | .error e => some ("Error scraping category " ++ c.1 ++ ": " ++ e)) := by
  induction categories generalizing errors0 with
  | nil => simp [scrapeMultipleCategories]
  | cons c cs ih =>
    cases hw : walk c.1 c.2 with
    | ok books =>
      obtain ⟨ih1, ih2, ih3⟩ := ih errors0
      refine ⟨?_, ?_, ?_⟩ <;>
        simp [scrapeMultipleCategories, hw, ih1, ih2, ih3]
    | error e =>
      obtain ⟨ih1, ih2, ih3⟩ :=
        ih (errors0 ++ ["Error scraping category " ++ c.1 ++ ": " ++ e])
      refine ⟨?_, ?_, ?_⟩ <;>
        simp [scrapeMultipleCategories, hw, ih1, ih2, ih3]

end Scraper
